import Mathlib

/-!
Shallow embedding of `barcode_validator/daemon.py`: the PR reconciliation
daemon.  Statuses are the literal strings the program stores in its SQLite
table (`'processing'`, `'completed'`, `'error'`, and the `'pending'` value
tested but never written).  External collaborators (GitHub API, git
subprocesses, the validation engine) are modelled as environment data
describing what each call would do in a given run.
-/

namespace BarcodeDaemon

/-- Findings produced by the external validation engine
(`BarcodeValidator.validate_fasta` returns a list of results per file;
the engine itself is outside `daemon.py`, so findings are opaque tokens). -/
abbrev Finding := Nat

/-- One row of the `prs` table: `(status TEXT, last_updated TIMESTAMP)`;
the primary key `pr_number` is the map key (daemon.py lines 26-27). -/
structure StatusRecord where
  status : String
  lastUpdated : Nat
deriving DecidableEq, Repr

/-- The `prs` table: at most one row per `pr_number` (primary key).
`setup_database` (daemon.py lines 23-29) creates it empty. -/
abbrev PrStore := List (Nat × StatusRecord)

/-- `SELECT status FROM prs WHERE pr_number = ?` (daemon.py line 127). -/
def lookupPr : PrStore → Nat → Option StatusRecord
  | [], _ => none
  | (k, r) :: rest, id => if k = id then some r else lookupPr rest id

/-- `INSERT OR REPLACE` / `UPDATE ... WHERE pr_number = ?` on the primary
key: replace the row for the id, inserting it when absent
(daemon.py lines 132, 139, 147). -/
def setRecord : PrStore → Nat → StatusRecord → PrStore
  | [], id, r => [(id, r)]
  | (k, r0) :: rest, id, r =>
      if k = id then (id, r) :: rest else (k, r0) :: setRecord rest id r

/-- One entry of a pull request's changed-file list, with the HTTP status
code that fetching its `raw_url` would return (daemon.py lines 82-84). -/
structure PRFile where
  filename : String
  fetchStatusCode : Nat
deriving DecidableEq, Repr

/-- Python `str.endswith(suffix)`: the suffix relation on the strings'
character sequences. -/
def strEndsWith (s suffix : String) : Bool :=
  suffix.data.isSuffixOf s.data

/-- `f['filename'].endswith(('.fasta', '.fa', '.fas'))`
(daemon.py lines 75 and 197). -/
def hasFastaSuffix (name : String) : Bool :=
  strEndsWith name ".fasta" || strEndsWith name ".fa" || strEndsWith name ".fas"

/-- Exceptions that `run_validation` can raise: `os.chdir` failing
(line 69), `requests.get` in `get_pr_files` raising (line 74), or
`os.makedirs` on an empty dirname raising FileNotFoundError (line 87). -/
inductive PipeExc
  | chdirFail
  | transport
  | makedirsFail
deriving DecidableEq, Repr

/-- `os.path.dirname(name)` is the empty string exactly when `name`
contains no `/` separator (a repository-root file); then
`os.makedirs('', exist_ok=True)` at line 87 raises FileNotFoundError.
For a non-empty dirname the directory creation is modelled as
succeeding (writable working area). -/
def dirnameEmpty (name : String) : Bool :=
  !(name.data.contains '/')

/-- Environment of one `run_validation` call: what each external step
would do.  `gitFetchExit` and `gitCheckoutExit` are the exit codes of the
two `subprocess.run` git commands (lines 70-71); the source never
inspects them (no `check=True`), so they are recorded but unused.
`filesResult` is what `get_pr_files` returns, or a raised transport
exception.  `validate` is the external validation engine. -/
structure PipelineEnv where
  chdirOk : Bool
  gitFetchExit : Nat
  gitCheckoutExit : Nat
  filesResult : Except Unit (List PRFile)
  validate : String → List Finding

/-- The per-file loop of `run_validation` (daemon.py lines 79-99): for
each file, fetch its content; on HTTP 200 run
`os.makedirs(os.path.dirname(filename), exist_ok=True)` — which raises
when the dirname is empty, aborting the whole loop — then save and
validate the file, extending the result list with one
`(filename, result)` pair per finding; on any other status code log and
skip.  Returns the filenames validated and the accumulated
`all_results`, or the exception that escaped (discarding the partial
results, as the raised exception does). -/
def validateFiles (validate : String → List Finding) :
    List PRFile → Except PipeExc (List String × List (String × Finding))
  | [] => .ok ([], [])
  | f :: rest =>
      if f.fetchStatusCode == 200 then
        if dirnameEmpty f.filename then .error .makedirsFail
        else
          match validateFiles validate rest with
          | .error e => .error e
          | .ok acc =>
              .ok (f.filename :: acc.1,
                   (validate f.filename).map (fun r => (f.filename, r)) ++ acc.2)
      else validateFiles validate rest

/-- `run_validation` (daemon.py lines 57-101): change into the local
clone, run `git fetch` and `git checkout` (exit codes discarded), list
the PR's files, filter to FASTA suffixes, then run the per-file loop.
Raising steps surface as `Except.error`. -/
def run_validation (env : PipelineEnv) :
    Except PipeExc (List String × List (String × Finding)) :=
  if env.chdirOk then
    match env.filesResult with
    | .error _ => .error .transport
    | .ok files =>
        let fasta_files := files.filter (fun f => hasFastaSuffix f.filename)
        validateFiles env.validate fasta_files
  else .error .chdirFail

/-- Environment of one `process_pr` call: the pipeline environment plus
what `requests.post` in `post_comment` would do (daemon.py line 122) —
whether it raises, and the response status code it returns otherwise
(the source never inspects the response, so the code is unused). -/
structure ProcessEnv where
  pipeline : PipelineEnv
  postRaises : Bool
  postStatusCode : Nat

/-- One write to the `prs` table, with the `datetime.now()` value used. -/
structure StoreWrite where
  id : Nat
  status : String
  time : Nat
deriving DecidableEq, Repr

/-- Result of one `process_pr` call: the table afterwards, whether the
pipeline was invoked, the filenames validated, the outcomes delivered in
a posted comment, and the trace of table writes in order. -/
structure PrResult where
  store : PrStore
  invoked : Bool
  validated : List String
  published : List (String × Finding)
  writes : List StoreWrite
deriving DecidableEq, Repr

/-- The admission check of `process_pr` (daemon.py line 130):
`if row is None or row[0] == 'pending'`. -/
def admitCheck (store : PrStore) (pr : Nat) : Bool :=
  match lookupPr store pr with
  | none => true
  | some rec => rec.status == "pending"

/-- `process_pr` (daemon.py lines 125-149): read the row; if absent or
`'pending'`, write `('processing', now)`, run `run_validation`, post the
comment, write `('completed', now)`; any exception in that block is
caught and `('error', now)` is written instead.  `t1` and `t2` are the
`datetime.now()` values of the first and second write. -/
def process_pr (env : ProcessEnv) (store : PrStore) (pr t1 t2 : Nat) : PrResult :=
  if admitCheck store pr then
    let store1 := setRecord store pr ⟨"processing", t1⟩
    match run_validation env.pipeline with
    | .error _ =>
        ⟨setRecord store1 pr ⟨"error", t2⟩, true, [], [],
         [⟨pr, "processing", t1⟩, ⟨pr, "error", t2⟩]⟩
    | .ok vr =>
        if env.postRaises then
          ⟨setRecord store1 pr ⟨"error", t2⟩, true, vr.1, [],
           [⟨pr, "processing", t1⟩, ⟨pr, "error", t2⟩]⟩
        else
          ⟨setRecord store1 pr ⟨"completed", t2⟩, true, vr.1, vr.2,
           [⟨pr, "processing", t1⟩, ⟨pr, "completed", t2⟩]⟩
  else ⟨store, false, [], [], []⟩

/-- One open pull request as seen by one iteration of the main loop:
its number, head branch, what `get_pr_files` in `main` (line 193)
returns (or raises), the environment for `process_pr`, and the two
`datetime.now()` ticks its writes would use. -/
structure CyclePR where
  number : Nat
  branch : String
  filesMain : Except Unit (List PRFile)
  env : ProcessEnv
  t1 : Nat
  t2 : Nat

/-- Result of one reconciliation cycle: the table, the PRs for which
`process_pr` was called (in order), the PRs actually admitted (pipeline
invoked), and whether an uncaught exception escaped the loop body. -/
structure CycleResult where
  store : PrStore
  attempted : List Nat
  invoked : List Nat
  crashed : Bool

/-- The `for pr in prs` body of the main loop (daemon.py lines 188-198):
list the PR's files (a raised transport exception propagates uncaught —
there is no handler in `main`), and call `process_pr` when any filename
has a FASTA suffix. -/
def cycleGo : List CyclePR → PrStore → CycleResult
  | [], store => ⟨store, [], [], false⟩
  | pr :: rest, store =>
      match pr.filesMain with
      | .error _ => ⟨store, [], [], true⟩
      | .ok files =>
          if files.any (fun f => hasFastaSuffix f.filename) then
            let r := process_pr pr.env store pr.number pr.t1 pr.t2
            let c := cycleGo rest r.store
            ⟨c.store, pr.number :: c.attempted,
             (if r.invoked then [pr.number] else []) ++ c.invoked, c.crashed⟩
          else
            let c := cycleGo rest store
            ⟨c.store, c.attempted, c.invoked, c.crashed⟩

/-- One reconciliation cycle (daemon.py lines 181-198): `get_open_prs`
(a raised transport exception propagates uncaught), then the per-PR
loop.  The commented-out cleanup (lines 201-204) performs no writes. -/
def runCycle (listing : Except Unit (List CyclePR)) (store : PrStore) :
    CycleResult :=
  match listing with
  | .error _ => ⟨store, [], [], true⟩
  | .ok prs => cycleGo prs store

/-- The `while True` main loop (daemon.py lines 181-206) over a finite
schedule of cycles: an uncaught exception in any cycle terminates the
process (there is no surrounding handler), leaving later cycles unrun.
Returns the final table and whether the loop died by exception. -/
def runLoop : List (Except Unit (List CyclePR)) → PrStore → PrStore × Bool
  | [], store => (store, false)
  | inp :: rest, store =>
      let c := runCycle inp store
      if c.crashed then (c.store, true) else runLoop rest c.store

/-- Whether an `Except` value is a normal return. -/
def exOk : Except Unit (List PRFile) → Bool
  | .ok _ => true
  | .error _ => false

/-- The selection predicate of the main loop (daemon.py line 197):
some changed file of the PR has a FASTA suffix. -/
def qualifies (pr : CyclePR) : Bool :=
  match pr.filesMain with
  | .ok files => files.any (fun f => hasFastaSuffix f.filename)
  | .error _ => false

/-- Stores reachable from the fresh table created by `setup_database`
(daemon.py lines 23-29) through calls of `process_pr`, the only
operation that writes the table (the cleanup at lines 201-204 is
commented out). -/
inductive Reachable : PrStore → Prop
  | init : Reachable []
  | step (env : ProcessEnv) (pr t1 t2 : Nat) {s : PrStore} :
      Reachable s → Reachable (process_pr env s pr t1 t2).store

/-- One `process_pr` invocation in a daemon history, with the two
`datetime.now()` values its table writes would use. -/
structure Step where
  env : ProcessEnv
  pr : Nat
  t1 : Nat
  t2 : Nat

/-- The wall-clock readings consumed by a sequence of `process_pr`
invocations, in program order. -/
def stepTimes : List Step → List Nat
  | [] => []
  | s :: rest => s.t1 :: s.t2 :: stepTimes rest

/-- Run a sequence of `process_pr` invocations, collecting every table
write in program order. -/
def runSteps : List Step → PrStore → PrStore × List StoreWrite
  | [], store => (store, [])
  | s :: rest, store =>
      let r := process_pr s.env store s.pr s.t1 s.t2
      let rec' := runSteps rest r.store
      (rec'.1, r.writes ++ rec'.2)

/-- The changed files of the worked example: one good FASTA file in a
subdirectory, one ignored text file, one FASTA file whose fetch returns
HTTP 404. -/
def exampleFiles : List PRFile :=
  [⟨"data/seq1.fasta", 200⟩, ⟨"notes.txt", 200⟩, ⟨"data/seq3.fas", 404⟩]

/-- A fully succeeding environment: chdir ok, git commands exit 0, the
example file list, one finding per validated file, posting returns 201. -/
def envOk : ProcessEnv :=
  ⟨⟨true, 0, 0, Except.ok exampleFiles, fun _ => [7]⟩, false, 201⟩

/-- Like `envOk` except `requests.post` raises a transport exception. -/
def envPostRaises : ProcessEnv :=
  ⟨⟨true, 0, 0, Except.ok exampleFiles, fun _ => [7]⟩, true, 201⟩

/-- Environment whose `git checkout` exits nonzero while every other
step succeeds (the candidate file sits in a subdirectory, so saving it
succeeds). -/
def envBadCheckout : ProcessEnv :=
  ⟨⟨true, 0, 1, Except.ok [⟨"data/seq1.fasta", 200⟩], fun _ => [7]⟩, false, 201⟩

/-- Environment where the validation engine reports two findings for
its single file. -/
def envTwoFindings : ProcessEnv :=
  ⟨⟨true, 0, 0, Except.ok [⟨"data/a.fasta", 200⟩], fun _ => [3, 4]⟩, false, 201⟩

/-- Environment whose only candidate file sits at the repository root:
`os.makedirs('')` raises while saving it, aborting the item. -/
def envRootFile : ProcessEnv :=
  ⟨⟨true, 0, 0, Except.ok [⟨"seq1.fasta", 200⟩], fun _ => [7]⟩, false, 201⟩

/-- A store whose only record is an `'error'` row for PR 1. -/
def storeErr : PrStore := [(1, ⟨"error", 0⟩)]

/-- A store whose only record is a stale `'processing'` row for PR 1
(`last_updated` = 0). -/
def storeStuck : PrStore := [(1, ⟨"processing", 0⟩)]

/-- A store whose only record is a `'completed'` row for PR 9. -/
def storeDone : PrStore := [(9, ⟨"completed", 5⟩)]

/-- A cycle entry for PR 2 carrying one FASTA file, all steps succeeding. -/
def cyclePr2 : CyclePR := ⟨2, "feature", Except.ok [⟨"x.fasta", 200⟩], envOk, 0, 1⟩

/-- A cycle entry for PR 3 whose only changed file is not a FASTA file. -/
def cycleNoFasta : CyclePR := ⟨3, "doc", Except.ok [⟨"readme.md", 200⟩], envOk, 2, 3⟩

/-- A cycle entry for PR 9, whose store record is already completed. -/
def cycleDone : CyclePR := ⟨9, "b", Except.ok [⟨"x.fasta", 200⟩], envOk, 6, 7⟩

/-- A cycle entry for PR 5 whose changed-files listing raises a
transport exception in `main`. -/
def cycleBadFiles : CyclePR := ⟨5, "c", Except.error (), envOk, 8, 9⟩

/-- Two `process_pr` invocations with increasing clock readings. -/
def stepsW : List Step := [⟨envOk, 1, 10, 11⟩, ⟨envPostRaises, 4, 12, 13⟩]

/-!  Supporting lemmas.  -/

/-- Reading the table after a keyed replace-or-insert. -/
theorem lookup_setRecord (s : PrStore) (id j : Nat) (v : StatusRecord) :
    lookupPr (setRecord s id v) j = if id = j then some v else lookupPr s j := by
  induction s with
  | nil => simp [setRecord, lookupPr]
  | cons hd tl ih =>
      obtain ⟨k, r0⟩ := hd
      by_cases hk : k = id
      · subst hk
        by_cases hj : k = j <;> simp [setRecord, lookupPr, hj]
      · by_cases hj : k = j
        · subst hj
          have : id ≠ k := fun h => hk h.symm
          simp [setRecord, lookupPr, hk, this]
        · simp [setRecord, lookupPr, hk, hj, ih]

/-- A declined `process_pr` call returns everything unchanged. -/
theorem process_pr_declined (env : ProcessEnv) (store : PrStore) (pr t1 t2 : Nat)
    (h : admitCheck store pr = false) :
    process_pr env store pr t1 t2 = ⟨store, false, [], [], []⟩ := by
  unfold process_pr
  rw [h]
  simp

/-- The pipeline is invoked exactly when the admission check passes. -/
theorem process_pr_invoked (env : ProcessEnv) (store : PrStore) (pr t1 t2 : Nat) :
    (process_pr env store pr t1 t2).invoked = admitCheck store pr := by
  unfold process_pr
  rcases h : admitCheck store pr
  · simp
  · simp only [if_true]
    rcases run_validation env.pipeline with e | vr
    · rfl
    · by_cases hp : env.postRaises <;> simp [hp]

/-- An admitted `process_pr` call writes `'processing'` then a final
status that is `'error'` or `'completed'`. -/
theorem process_pr_admitted (env : ProcessEnv) (store : PrStore) (pr t1 t2 : Nat)
    (h : admitCheck store pr = true) :
    ∃ st, (st = "error" ∨ st = "completed") ∧
      (process_pr env store pr t1 t2).store =
        setRecord (setRecord store pr ⟨"processing", t1⟩) pr ⟨st, t2⟩ ∧
      (process_pr env store pr t1 t2).writes =
        [⟨pr, "processing", t1⟩, ⟨pr, st, t2⟩] := by
  unfold process_pr
  rw [h]
  simp only [if_true]
  rcases run_validation env.pipeline with e | vr
  · exact ⟨"error", Or.inl rfl, rfl, rfl⟩
  · by_cases hp : env.postRaises
    · refine ⟨"error", Or.inl rfl, ?_, ?_⟩ <;> simp [hp]
    · refine ⟨"completed", Or.inr rfl, ?_, ?_⟩ <;> simp [hp]

/-- Closed form of the per-file loop when every fetched file lies in a
subdirectory (so no `makedirs` raise): the validated filenames are those
fetched with HTTP 200, and the outcomes are one pair per finding of each
such file, in file order. -/
theorem validateFiles_eq (v : String → List Finding) (files : List PRFile)
    (hdir : ∀ f ∈ files, f.fetchStatusCode == 200 →
        dirnameEmpty f.filename = false) :
    validateFiles v files =
      Except.ok
        ((files.filter (fun f => f.fetchStatusCode == 200)).map (fun f => f.filename),
         (files.filter (fun f => f.fetchStatusCode == 200)).flatMap
           (fun f => (v f.filename).map (fun r => (f.filename, r)))) := by
  induction files with
  | nil => simp [validateFiles]
  | cons f rest ih =>
      have hrest : ∀ g ∈ rest, g.fetchStatusCode == 200 →
          dirnameEmpty g.filename = false :=
        fun g hg => hdir g (List.mem_cons_of_mem f hg)
      rcases hc : f.fetchStatusCode == 200
      · simp [validateFiles, List.filter_cons, hc, ih hrest]
      · have hd := hdir f (List.mem_cons_self f rest) hc
        simp [validateFiles, List.filter_cons, hc, hd, ih hrest]

/-- The per-file loop raises out of `run_validation` when some fetched
file sits at the repository root (`os.makedirs('')`, line 87). -/
theorem validateFiles_err (v : String → List Finding) (files : List PRFile)
    (hbad : ∃ f ∈ files, f.fetchStatusCode == 200 ∧
        dirnameEmpty f.filename = true) :
    ∃ e, validateFiles v files = Except.error e := by
  induction files with
  | nil => simp at hbad
  | cons f rest ih =>
      rcases hbad with ⟨g, hg, hg200, hgdir⟩
      rcases List.mem_cons.mp hg with hgf | hgrest
      · subst hgf
        exact ⟨PipeExc.makedirsFail, by simp [validateFiles, hg200, hgdir]⟩
      · obtain ⟨e, he⟩ := ih ⟨g, hgrest, hg200, hgdir⟩
        rcases hc : f.fetchStatusCode == 200
        · exact ⟨e, by simp [validateFiles, hc, he]⟩
        · rcases hd : dirnameEmpty f.filename
          · exact ⟨e, by simp [validateFiles, hc, hd, he]⟩
          · exact ⟨PipeExc.makedirsFail, by simp [validateFiles, hc, hd]⟩

/-- A filter and its complement partition a list's length. -/
theorem length_filter_split (l : List α) (p : α → Bool) :
    (l.filter p).length + (l.filter (fun x => !(p x))).length = l.length := by
  induction l with
  | nil => simp
  | cons x rest ih =>
      rcases hx : p x <;> simp [List.filter_cons, hx] <;> omega

/-- A flat map whose pieces are singletons preserves length. -/
theorem flatMap_length_one (l : List α) (f : α → List β)
    (h : ∀ x ∈ l, (f x).length = 1) : (l.flatMap f).length = l.length := by
  induction l with
  | nil => simp
  | cons x rest ih =>
      have hx := h x (List.mem_cons_self x rest)
      simp [List.flatMap_cons, hx, ih fun y hy => h y (List.mem_cons_of_mem x hy)]
      omega

/-- `run_validation` on a run where chdir succeeds, the file listing
returns normally and every fetched candidate file lies in a
subdirectory. -/
theorem run_validation_ok (env : PipelineEnv) (files : List PRFile)
    (hch : env.chdirOk = true) (hfl : env.filesResult = Except.ok files)
    (hdir : ∀ f ∈ files.filter (fun f => hasFastaSuffix f.filename),
        f.fetchStatusCode == 200 → dirnameEmpty f.filename = false) :
    run_validation env =
      Except.ok
        (((files.filter (fun f => hasFastaSuffix f.filename)).filter
            (fun f => f.fetchStatusCode == 200)).map (fun f => f.filename),
         ((files.filter (fun f => hasFastaSuffix f.filename)).filter
            (fun f => f.fetchStatusCode == 200)).flatMap
           (fun f => (env.validate f.filename).map (fun r => (f.filename, r)))) := by
  unfold run_validation
  rw [hch, hfl]
  simp only [if_true]
  exact validateFiles_eq env.validate
    (files.filter (fun f => hasFastaSuffix f.filename)) hdir

/-- Closed form of an admitted `process_pr` call on a run where no step
raises: final status `'completed'`, outcomes per the per-file loop. -/
theorem process_pr_ok (env : ProcessEnv) (store : PrStore) (pr t1 t2 : Nat)
    (files : List PRFile)
    (hadm : admitCheck store pr = true)
    (hch : env.pipeline.chdirOk = true)
    (hfl : env.pipeline.filesResult = Except.ok files)
    (hdir : ∀ f ∈ files.filter (fun f => hasFastaSuffix f.filename),
        f.fetchStatusCode == 200 → dirnameEmpty f.filename = false)
    (hpost : env.postRaises = false) :
    process_pr env store pr t1 t2 =
      ⟨setRecord (setRecord store pr ⟨"processing", t1⟩) pr ⟨"completed", t2⟩,
       true,
       ((files.filter (fun f => hasFastaSuffix f.filename)).filter
          (fun f => f.fetchStatusCode == 200)).map (fun f => f.filename),
       ((files.filter (fun f => hasFastaSuffix f.filename)).filter
          (fun f => f.fetchStatusCode == 200)).flatMap
         (fun f => (env.pipeline.validate f.filename).map (fun r => (f.filename, r))),
       [⟨pr, "processing", t1⟩, ⟨pr, "completed", t2⟩]⟩ := by
  unfold process_pr
  rw [hadm, run_validation_ok env.pipeline files hch hfl hdir]
  simp [hpost]

/-- When every file listing in a cycle returns normally, the PRs handed
to `process_pr` are exactly the qualifying ones, in listing order,
independent of the store. -/
theorem cycleGo_attempted (prs : List CyclePR) (store : PrStore)
    (h : ∀ pr ∈ prs, exOk pr.filesMain = true) :
    (cycleGo prs store).attempted = (prs.filter qualifies).map (fun pr => pr.number) := by
  induction prs generalizing store with
  | nil => simp [cycleGo]
  | cons pr rest ih =>
      have hok := h pr (List.mem_cons_self pr rest)
      have hrest : ∀ q ∈ rest, exOk q.filesMain = true :=
        fun q hq => h q (List.mem_cons_of_mem pr hq)
      rcases hfm : pr.filesMain with e | files
      · rw [hfm] at hok; simp [exOk] at hok
      · rcases hq : files.any (fun f => hasFastaSuffix f.filename)
        · simp [cycleGo, hfm, hq, List.filter_cons, qualifies, ih _ hrest]
        · simp [cycleGo, hfm, hq, List.filter_cons, qualifies, ih _ hrest]

/-- A cycle over a store in which every listed PR is `'completed'` admits
nothing and leaves the store untouched. -/
theorem cycleGo_all_completed (prs : List CyclePR) (store : PrStore)
    (h : ∀ pr ∈ prs, ∃ rec, lookupPr store pr.number = some rec ∧
        rec.status = "completed") :
    (cycleGo prs store).store = store ∧ (cycleGo prs store).invoked = [] := by
  induction prs generalizing store with
  | nil => simp [cycleGo]
  | cons pr rest ih =>
      have hrest : ∀ q ∈ rest, ∃ rec, lookupPr store q.number = some rec ∧
          rec.status = "completed" :=
        fun q hq => h q (List.mem_cons_of_mem pr hq)
      obtain ⟨rec, hrec, hst⟩ := h pr (List.mem_cons_self pr rest)
      have hadm : admitCheck store pr.number = false := by
        unfold admitCheck
        rw [hrec]
        simp [hst]
      rcases hfm : pr.filesMain with e | files
      · simp [cycleGo, hfm]
      · rcases hq : files.any (fun f => hasFastaSuffix f.filename)
        · simp [cycleGo, hfm, hq, ih _ hrest]
        · have hd := process_pr_declined pr.env store pr.number pr.t1 pr.t2 hadm
          simp [cycleGo, hfm, hq, hd, ih _ hrest]

/-- Every status in a store the daemon built is one of the three strings
the program writes. -/
theorem reachable_status (s : PrStore) (h : Reachable s) :
    ∀ id rec, lookupPr s id = some rec →
      rec.status = "processing" ∨ rec.status = "completed" ∨ rec.status = "error" := by
  induction h with
  | init => intro id rec hl; simp [lookupPr] at hl
  | step env pr t1 t2 hs ih =>
      intro id rec hl
      rename_i s0
      rcases hadm : admitCheck s0 pr
      · rw [process_pr_declined env s0 pr t1 t2 hadm] at hl
        exact ih id rec hl
      · obtain ⟨st, hst, hstore, _⟩ := process_pr_admitted env s0 pr t1 t2 hadm
        rw [hstore, lookup_setRecord, lookup_setRecord] at hl
        by_cases hpr : pr = id
        · simp [hpr] at hl
          rcases hst with h1 | h1 <;> simp [← hl, h1]
        · simp [hpr] at hl
          exact ih id rec hl

/-- The table-write times of a history of `process_pr` invocations form
a sublist of the wall-clock readings consumed, in order. -/
theorem runSteps_times_sublist (steps : List Step) (store : PrStore) :
    ((runSteps steps store).2.map (fun w => w.time)).Sublist (stepTimes steps) := by
  induction steps generalizing store with
  | nil => simp [runSteps, stepTimes]
  | cons s rest ih =>
      rcases hadm : admitCheck store s.pr
      · have hd := process_pr_declined s.env store s.pr s.t1 s.t2 hadm
        simp [runSteps, stepTimes, hd]
        exact ((ih _).cons s.t2).cons s.t1
      · obtain ⟨st, _, _, hw⟩ := process_pr_admitted s.env store s.pr s.t1 s.t2 hadm
        simp [runSteps, stepTimes, hw]
        exact ih _

/-!  Claims.  -/

/-- Claim C1, counterexample: the claim says processing is admitted iff
the stored status is absent or `'error'`; the code admits iff the row is
absent or `'pending'`.  At a store holding an `'error'` record the code
declines, refuting the claim. -/
theorem claim_C1_counterexample :
    ¬ (∀ (env : ProcessEnv) (store : PrStore) (pr t1 t2 : Nat),
        (process_pr env store pr t1 t2).invoked =
          ((lookupPr store pr).elim true (fun rec => rec.status == "error"))) :=
  fun h => absurd (h envOk storeErr 1 2 3) (by decide)

/-- Claim C1, amended: processing is admitted iff the stored status is
absent or `'pending'`; in every other stored state (including
`'error'`) the call declines without mutating the record, and when
admitted the first write moves the record to `'processing'`. -/
theorem claim_C1_amended (env : ProcessEnv) (store : PrStore) (pr t1 t2 : Nat) :
    ((process_pr env store pr t1 t2).invoked = true ↔
      lookupPr store pr = none ∨
        ∃ rec, lookupPr store pr = some rec ∧ rec.status = "pending") ∧
    ((process_pr env store pr t1 t2).invoked = false →
      process_pr env store pr t1 t2 = ⟨store, false, [], [], []⟩) ∧
    ((process_pr env store pr t1 t2).invoked = true →
      (process_pr env store pr t1 t2).writes.head? = some ⟨pr, "processing", t1⟩) := by
  refine ⟨?_, ?_, ?_⟩
  · rw [process_pr_invoked]
    unfold admitCheck
    rcases hl : lookupPr store pr with _ | rec
    · simp
    · simp [beq_iff_eq]
  · intro hinv
    rw [process_pr_invoked] at hinv
    exact process_pr_declined env store pr t1 t2 hinv
  · intro hinv
    rw [process_pr_invoked] at hinv
    obtain ⟨st, _, _, hw⟩ := process_pr_admitted env store pr t1 t2 hinv
    rw [hw]
    rfl

/-- Claim C1, witness: a `'completed'` record is declined and nothing is
mutated. -/
theorem claim_C1_witness :
    (process_pr envOk storeDone 9 6 7).invoked = false ∧
    process_pr envOk storeDone 9 6 7 = ⟨storeDone, false, [], [], []⟩ :=
  ⟨by decide, (claim_C1_amended envOk storeDone 9 6 7).2.1 (by decide)⟩

/-- Claim C2: a `'completed'` record is never moved back to
`'processing'` — `process_pr` declines it untouched — and a
reconciliation cycle over a store in which every listed PR is
`'completed'` invokes the pipeline zero times and changes nothing. -/
theorem claim_C2 :
    (∀ (env : ProcessEnv) (store : PrStore) (pr t1 t2 : Nat) (rec : StatusRecord),
        lookupPr store pr = some rec → rec.status = "completed" →
        process_pr env store pr t1 t2 = ⟨store, false, [], [], []⟩) ∧
    (∀ (prs : List CyclePR) (store : PrStore),
        (∀ pr ∈ prs, ∃ rec, lookupPr store pr.number = some rec ∧
            rec.status = "completed") →
        (runCycle (Except.ok prs) store).invoked = [] ∧
        (runCycle (Except.ok prs) store).store = store) := by
  constructor
  · intro env store pr t1 t2 rec hl hst
    apply process_pr_declined
    unfold admitCheck
    rw [hl]
    simp [hst]
  · intro prs store h
    have := cycleGo_all_completed prs store h
    exact ⟨this.2, this.1⟩

/-- Claim C2, witness: a cycle over one completed PR invokes nothing. -/
theorem claim_C2_witness :
    (∀ pr ∈ [cycleDone], ∃ rec, lookupPr storeDone pr.number = some rec ∧
        rec.status = "completed") ∧
    (runCycle (Except.ok [cycleDone]) storeDone).invoked = [] ∧
    (runCycle (Except.ok [cycleDone]) storeDone).store = storeDone :=
  ⟨by intro pr hpr
      simp only [List.mem_singleton] at hpr
      subst hpr
      exact ⟨⟨"completed", 5⟩, rfl, rfl⟩,
   claim_C2.2 [cycleDone] storeDone (by
      intro pr hpr
      simp only [List.mem_singleton] at hpr
      subst hpr
      exact ⟨⟨"completed", 5⟩, rfl, rfl⟩)⟩

/-- Claim C3, counterexample: a record stuck in `'processing'` whose age
(1000000 time units) exceeds a stuck-threshold of 3600 is still declined
untouched — the admission check never consults `last_updated` and no
takeover exists. -/
theorem claim_C3_counterexample :
    lookupPr storeStuck 1 = some ⟨"processing", 0⟩ ∧
    1000000 - (0 : Nat) > 3600 ∧
    (process_pr envOk storeStuck 1 1000000 1000001).invoked = false ∧
    (process_pr envOk storeStuck 1 1000000 1000001).store = storeStuck :=
  ⟨rfl, by omega, by decide, by decide⟩

/-- Claim C3, amended: a record whose status is `'processing'` is never
admitted, regardless of how stale its `last_updated` is; the call
declines without mutating anything (no stuck-threshold takeover exists). -/
theorem claim_C3_amended (env : ProcessEnv) (store : PrStore) (pr t1 t2 : Nat)
    (rec : StatusRecord) (h1 : lookupPr store pr = some rec)
    (h2 : rec.status = "processing") :
    process_pr env store pr t1 t2 = ⟨store, false, [], [], []⟩ := by
  apply process_pr_declined
  unfold admitCheck
  rw [h1]
  simp [h2]

/-- Claim C3, witness: the stale `'processing'` record is declined. -/
theorem claim_C3_witness :
    lookupPr storeStuck 1 = some ⟨"processing", 0⟩ ∧
    process_pr envOk storeStuck 1 50 51 = ⟨storeStuck, false, [], [], []⟩ :=
  ⟨rfl, claim_C3_amended envOk storeStuck 1 50 51 ⟨"processing", 0⟩ rfl rfl⟩

/-- Claim C4, counterexample: with `git checkout` exiting nonzero (exit
code 1), the candidate file in a subdirectory and every raising step
succeeding, the item is recorded `'completed'` and one outcome is
published — not `'error'` with zero outcomes as the claim states: the
subprocess exit codes are never checked. -/
theorem claim_C4_counterexample :
    envBadCheckout.pipeline.gitCheckoutExit = 1 ∧
    (process_pr envBadCheckout [] 42 10 11).store = [(42, ⟨"completed", 11⟩)] ∧
    (process_pr envBadCheckout [] 42 10 11).published = [("data/seq1.fasta", 7)] :=
  ⟨rfl, by decide, by decide⟩

/-- Claim C4, amended: the git fetch/checkout exit codes never affect
the result (they are discarded); only an exception raised during the
pipeline (`os.chdir` failing, the files listing raising, or
`os.makedirs` on a root-level filename) is fatal — then the item is
recorded `'error'` and zero outcomes are published. -/
theorem claim_C4_amended :
    (∀ (p : PipelineEnv) (post : Bool) (code : Nat) (store : PrStore)
        (pr t1 t2 a b : Nat),
        process_pr ⟨⟨p.chdirOk, a, b, p.filesResult, p.validate⟩, post, code⟩
            store pr t1 t2 =
          process_pr ⟨p, post, code⟩ store pr t1 t2) ∧
    (∀ (env : ProcessEnv) (store : PrStore) (pr t1 t2 : Nat) (e : PipeExc),
        run_validation env.pipeline = Except.error e →
        (process_pr env store pr t1 t2).published = [] ∧
        (admitCheck store pr = true →
          lookupPr (process_pr env store pr t1 t2).store pr =
            some ⟨"error", t2⟩)) := by
  constructor
  · intro p post code store pr t1 t2 a b
    rfl
  · intro env store pr t1 t2 e herr
    rcases hadm : admitCheck store pr
    · rw [process_pr_declined env store pr t1 t2 hadm]
      exact ⟨rfl, fun hcon => absurd hcon (by simp)⟩
    · unfold process_pr
      rw [hadm, herr]
      simp [lookup_setRecord]

/-- Claim C4, witness: a root-level candidate file makes `os.makedirs`
raise, and the item is recorded `'error'` with nothing published. -/
theorem claim_C4_witness :
    run_validation envRootFile.pipeline = Except.error PipeExc.makedirsFail ∧
    (process_pr envRootFile [] 1 0 1).published = [] ∧
    lookupPr (process_pr envRootFile [] 1 0 1).store 1 = some ⟨"error", 1⟩ :=
  ⟨rfl,
   (claim_C4_amended.2 envRootFile [] 1 0 1 PipeExc.makedirsFail rfl).1,
   (claim_C4_amended.2 envRootFile [] 1 0 1 PipeExc.makedirsFail rfl).2 rfl⟩

/-- Claim C5, counterexample: one candidate file (N = 1), zero fetch
failures (M = 0), yet two outcomes are published because the validation
engine returns two findings for the file — refuting "exactly N − M
outcomes". -/
theorem claim_C5_counterexample :
    envTwoFindings.pipeline.filesResult = Except.ok [⟨"data/a.fasta", 200⟩] ∧
    (process_pr envTwoFindings [] 7 0 1).validated.length = 1 ∧
    (process_pr envTwoFindings [] 7 0 1).published.length = 2 ∧
    lookupPr (process_pr envTwoFindings [] 7 0 1).store 7 = some ⟨"completed", 1⟩ :=
  ⟨rfl, by decide, by decide, by decide⟩

/-- Claim C5, amended: failed fetches are skipped; provided every
successfully fetched candidate file lies in a subdirectory (otherwise
the save step's `os.makedirs` raises and the whole item is recorded
`'error'` with nothing published), exactly the N − M successfully
fetched candidate files are validated; the published outcomes are one
pair per finding of each such file (so exactly N − M outcomes when the
engine yields one finding per file); and, when the report post does not
raise, the status is recorded `'completed'`. -/
theorem claim_C5_amended (env : ProcessEnv) (store : PrStore) (pr t1 t2 : Nat)
    (files : List PRFile)
    (hadm : admitCheck store pr = true)
    (hch : env.pipeline.chdirOk = true)
    (hfl : env.pipeline.filesResult = Except.ok files)
    (hdir : ∀ f ∈ files.filter (fun f => hasFastaSuffix f.filename),
        f.fetchStatusCode == 200 → dirnameEmpty f.filename = false)
    (hpost : env.postRaises = false) :
    (process_pr env store pr t1 t2).validated =
      ((files.filter (fun f => hasFastaSuffix f.filename)).filter
        (fun f => f.fetchStatusCode == 200)).map (fun f => f.filename) ∧
    (process_pr env store pr t1 t2).published =
      ((files.filter (fun f => hasFastaSuffix f.filename)).filter
        (fun f => f.fetchStatusCode == 200)).flatMap
        (fun f => (env.pipeline.validate f.filename).map (fun r => (f.filename, r))) ∧
    (process_pr env store pr t1 t2).validated.length =
      (files.filter (fun f => hasFastaSuffix f.filename)).length -
        ((files.filter (fun f => hasFastaSuffix f.filename)).filter
          (fun f => !(f.fetchStatusCode == 200))).length ∧
    ((∀ f ∈ (files.filter (fun f => hasFastaSuffix f.filename)).filter
          (fun f => f.fetchStatusCode == 200),
        (env.pipeline.validate f.filename).length = 1) →
      (process_pr env store pr t1 t2).published.length =
        (files.filter (fun f => hasFastaSuffix f.filename)).length -
          ((files.filter (fun f => hasFastaSuffix f.filename)).filter
            (fun f => !(f.fetchStatusCode == 200))).length) ∧
    lookupPr (process_pr env store pr t1 t2).store pr = some ⟨"completed", t2⟩ := by
  rw [process_pr_ok env store pr t1 t2 files hadm hch hfl hdir hpost]
  have hsplit := length_filter_split (files.filter (fun f => hasFastaSuffix f.filename))
    (fun f => f.fetchStatusCode == 200)
  refine ⟨rfl, rfl, ?_, ?_, ?_⟩
  · simp only [List.length_map]
    omega
  · intro hone
    have := flatMap_length_one
      ((files.filter (fun f => hasFastaSuffix f.filename)).filter
        (fun f => f.fetchStatusCode == 200))
      (fun f => (env.pipeline.validate f.filename).map (fun r => (f.filename, r)))
      (fun f hf => by simp [hone f hf])
    simp only [this]
    omega
  · rw [lookup_setRecord]
    simp

/-- Claim C5, witness: the example item (two candidate files, one 404)
ends `'completed'`. -/
theorem claim_C5_witness :
    admitCheck ([] : PrStore) 42 = true ∧
    envOk.pipeline.chdirOk = true ∧
    envOk.pipeline.filesResult = Except.ok exampleFiles ∧
    (∀ f ∈ exampleFiles.filter (fun f => hasFastaSuffix f.filename),
        f.fetchStatusCode == 200 → dirnameEmpty f.filename = false) ∧
    envOk.postRaises = false ∧
    lookupPr (process_pr envOk [] 42 10 11).store 42 = some ⟨"completed", 11⟩ :=
  ⟨rfl, rfl, rfl, by decide, rfl,
   (claim_C5_amended envOk [] 42 10 11 exampleFiles rfl rfl rfl (by decide) rfl).2.2.2.2⟩

/-- Claim C6, counterexample: two runs identical except for the publish
step — when `requests.post` raises, the item is recorded `'error'`; when
it succeeds, `'completed'`.  The final recorded status is not the same,
refuting the claim. -/
theorem claim_C6_counterexample :
    lookupPr (process_pr envPostRaises [] 3 0 1).store 3 = some ⟨"error", 1⟩ ∧
    lookupPr (process_pr envOk [] 3 0 1).store 3 = some ⟨"completed", 1⟩ :=
  ⟨by decide, by decide⟩

/-- Claim C6, amended: a publish attempt that raises is caught by the
item-level handler and the item is recorded `'error'` instead of
`'completed'`; a publish response with a non-success status code is
ignored (the response is never inspected) and leaves the status
`'completed'`. -/
theorem claim_C6_amended (p : PipelineEnv) (code code' : Nat) (post : Bool)
    (store : PrStore) (pr t1 t2 : Nat) (files : List PRFile)
    (hadm : admitCheck store pr = true)
    (hch : p.chdirOk = true) (hfl : p.filesResult = Except.ok files)
    (hdir : ∀ f ∈ files.filter (fun f => hasFastaSuffix f.filename),
        f.fetchStatusCode == 200 → dirnameEmpty f.filename = false) :
    lookupPr (process_pr ⟨p, true, code⟩ store pr t1 t2).store pr =
      some ⟨"error", t2⟩ ∧
    lookupPr (process_pr ⟨p, false, code⟩ store pr t1 t2).store pr =
      some ⟨"completed", t2⟩ ∧
    process_pr ⟨p, post, code⟩ store pr t1 t2 =
      process_pr ⟨p, post, code'⟩ store pr t1 t2 := by
  refine ⟨?_, ?_, rfl⟩
  · unfold process_pr
    rw [hadm]
    have hrv := run_validation_ok p files hch hfl hdir
    simp only [hrv, if_true]
    simp [lookup_setRecord]
  · rw [process_pr_ok ⟨p, false, code⟩ store pr t1 t2 files hadm hch hfl hdir rfl]
    simp [lookup_setRecord]

/-- Claim C6, witness: the two publish modes at a concrete input. -/
theorem claim_C6_witness :
    admitCheck ([] : PrStore) 3 = true ∧
    lookupPr (process_pr ⟨envOk.pipeline, true, 201⟩ [] 3 0 1).store 3 =
      some ⟨"error", 1⟩ ∧
    lookupPr (process_pr ⟨envOk.pipeline, false, 201⟩ [] 3 0 1).store 3 =
      some ⟨"completed", 1⟩ :=
  ⟨rfl,
   (claim_C6_amended envOk.pipeline 201 202 false [] 3 0 1 exampleFiles
      rfl rfl rfl (by decide)).1,
   (claim_C6_amended envOk.pipeline 201 202 false [] 3 0 1 exampleFiles
      rfl rfl rfl (by decide)).2.1⟩

/-- Claim C7, counterexample: a transport error while listing open
requests terminates the loop (crash flag true) — the following cycle,
which would have completed PR 2, never runs — refuting "the loop
continues to retry on the next poll interval rather than terminating". -/
theorem claim_C7_counterexample :
    runLoop [Except.error (), Except.ok [cyclePr2]] [] = ([], true) ∧
    lookupPr (runLoop [Except.ok [cyclePr2]] []).1 2 = some ⟨"completed", 1⟩ :=
  ⟨rfl, by decide⟩

/-- Claim C7, amended: a transport error while listing open requests
aborts that cycle with no item state mutated; a transport error while
listing one request's changed files aborts the cycle at that request,
leaving the state already recorded for earlier items of the cycle; in
both cases the exception propagates uncaught and terminates the main
loop instead of being logged and retried on the next poll interval. -/
theorem claim_C7_amended (prs rest' : List CyclePR) (bad : CyclePR)
    (rest more : List (Except Unit (List CyclePR))) (store : PrStore)
    (hbad : bad.filesMain = Except.error ()) :
    runCycle (Except.error ()) store = ⟨store, [], [], true⟩ ∧
    runLoop (Except.error () :: rest) store = (store, true) ∧
    (cycleGo (prs ++ bad :: rest') store).crashed = true ∧
    (cycleGo (prs ++ bad :: rest') store).store = (cycleGo prs store).store ∧
    runLoop (Except.ok (prs ++ bad :: rest') :: more) store =
      ((cycleGo prs store).store, true) := by
  have hmain : ∀ (ps : List CyclePR) (s : PrStore),
      (cycleGo (ps ++ bad :: rest') s).crashed = true ∧
      (cycleGo (ps ++ bad :: rest') s).store = (cycleGo ps s).store := by
    intro ps
    induction ps with
    | nil =>
        intro s
        simp [cycleGo, hbad]
    | cons pr tail ih =>
        intro s
        rcases hfm : pr.filesMain with e | files
        · simp [cycleGo, hfm]
        · rcases hq : files.any (fun f => hasFastaSuffix f.filename)
          · simpa [cycleGo, hfm, hq] using ih s
          · simpa [cycleGo, hfm, hq] using
              ih (process_pr pr.env s pr.number pr.t1 pr.t2).store
  refine ⟨rfl, rfl, (hmain prs store).1, (hmain prs store).2, ?_⟩
  show (let c := runCycle (Except.ok (prs ++ bad :: rest')) store
        if c.crashed then (c.store, true) else runLoop more c.store) =
      ((cycleGo prs store).store, true)
  simp only [runCycle, (hmain prs store).1, (hmain prs store).2, if_true]

/-- Claim C7, witness: a cycle whose second request's file listing
raises crashes after the first request was already processed. -/
theorem claim_C7_witness :
    cycleBadFiles.filesMain = Except.error () ∧
    (cycleGo [cyclePr2, cycleBadFiles] []).crashed = true ∧
    (cycleGo [cyclePr2, cycleBadFiles] []).store = (cycleGo [cyclePr2] []).store :=
  ⟨rfl, (claim_C7_amended [cyclePr2] [] cycleBadFiles [] [] [] rfl).2.2.1,
   (claim_C7_amended [cyclePr2] [] cycleBadFiles [] [] [] rfl).2.2.2.1⟩

/-- Claim C8: a request is handed to `process_pr` iff some changed-file
path ends with a recognized FASTA suffix; the selected items keep
listing order, and the selection does not depend on the store (no
status-based filtering at this stage). -/
theorem claim_C8 (prs : List CyclePR) (store store' : PrStore)
    (h : ∀ pr ∈ prs, exOk pr.filesMain = true) :
    (cycleGo prs store).attempted =
      (prs.filter qualifies).map (fun pr => pr.number) ∧
    (cycleGo prs store).attempted = (cycleGo prs store').attempted ∧
    (∀ (pr : CyclePR) (files : List PRFile), pr.filesMain = Except.ok files →
      (qualifies pr = true ↔ ∃ f ∈ files, hasFastaSuffix f.filename = true)) := by
  refine ⟨cycleGo_attempted prs store h, ?_, ?_⟩
  · rw [cycleGo_attempted prs store h, cycleGo_attempted prs store' h]
  · intro pr files hf
    unfold qualifies
    rw [hf]
    simp [List.any_eq_true]

/-- Claim C8, witness: of a FASTA PR and a non-FASTA PR, only the former
is selected, independent of the store. -/
theorem claim_C8_witness :
    (∀ pr ∈ [cyclePr2, cycleNoFasta], exOk pr.filesMain = true) ∧
    (cycleGo [cyclePr2, cycleNoFasta] []).attempted =
      (([cyclePr2, cycleNoFasta].filter qualifies).map (fun pr => pr.number)) :=
  ⟨by decide, (claim_C8 [cyclePr2, cycleNoFasta] [] storeDone (by decide)).1⟩

/-- Claim C9: every table write uses the current wall clock, so for any
history of `process_pr` invocations whose clock readings are
non-decreasing, the `last_updated` values written for any fixed id are
non-decreasing. -/
theorem claim_C9 (steps : List Step) (store : PrStore) (id : Nat)
    (hclock : (stepTimes steps).Pairwise (· ≤ ·)) :
    (((runSteps steps store).2.filter (fun w => w.id == id)).map
        (fun w => w.time)).Pairwise (· ≤ ·) := by
  have h1 : ((runSteps steps store).2.map (fun w => w.time)).Pairwise (· ≤ ·) :=
    List.Pairwise.sublist (runSteps_times_sublist steps store) hclock
  exact List.Pairwise.sublist
    (List.Sublist.map _ (List.filter_sublist _)) h1

/-- Claim C9, witness: a two-step history with increasing clock. -/
theorem claim_C9_witness :
    (stepTimes stepsW).Pairwise (· ≤ ·) ∧
    (((runSteps stepsW []).2.filter (fun w => w.id == 1)).map
        (fun w => w.time)).Pairwise (· ≤ ·) :=
  ⟨by decide, claim_C9 stepsW [] 1 (by decide)⟩

/-- Claim C10: every status the daemon writes is `'processing'`,
`'completed'` or `'error'`; a store populated solely by the program never
holds `'pending'`; hence the admission check succeeds exactly for ids
with no record at all. -/
theorem claim_C10 :
    (∀ (env : ProcessEnv) (s : PrStore) (pr t1 t2 : Nat) (w : StoreWrite),
        w ∈ (process_pr env s pr t1 t2).writes →
        w.status = "processing" ∨ w.status = "completed" ∨ w.status = "error") ∧
    (∀ s : PrStore, Reachable s → ∀ id rec, lookupPr s id = some rec →
        rec.status ≠ "pending") ∧
    (∀ s : PrStore, Reachable s → ∀ id,
        admitCheck s id = true ↔ lookupPr s id = none) := by
  have hpend : ∀ s : PrStore, Reachable s → ∀ id rec, lookupPr s id = some rec →
      rec.status ≠ "pending" := by
    intro s hr id rec hl
    rcases reachable_status s hr id rec hl with h | h | h <;> rw [h] <;> decide
  refine ⟨?_, hpend, ?_⟩
  · intro env s pr t1 t2 w hw
    rcases hadm : admitCheck s pr
    · rw [process_pr_declined env s pr t1 t2 hadm] at hw
      simp at hw
    · obtain ⟨st, hst, _, hwr⟩ := process_pr_admitted env s pr t1 t2 hadm
      rw [hwr] at hw
      simp only [List.mem_cons, List.not_mem_nil, or_false] at hw
      rcases hw with hw | hw
      · rw [hw]
        simp
      · rcases hst with h | h <;> rw [hw] <;> simp [h]
  · intro s hr id
    unfold admitCheck
    rcases hl : lookupPr s id with _ | rec
    · simp
    · have := hpend s hr id rec hl
      simp only [beq_iff_eq]
      constructor
      · intro hcon
        exact absurd hcon this
      · intro hcon
        exact absurd hcon (by simp)

/-- Claim C10, witness: the fresh table is reachable and admits id 0. -/
theorem claim_C10_witness :
    Reachable ([] : PrStore) ∧
    (admitCheck ([] : PrStore) 0 = true ↔ lookupPr ([] : PrStore) 0 = none) :=
  ⟨Reachable.init, claim_C10.2.2 [] Reachable.init 0⟩

end BarcodeDaemon
